import Mathlib

/-!
Verification of the Fish Audio TTS plugin (`livekit/plugins/fishaudio/tts.py`)
against its natural-language specification.

The file shallowly embeds the two synthesis engines:

* `ChunkedStream._run` (batched mode): the blocking backend generator is bridged
  through a FIFO courier queue (`run_tts` worker + consumer drain loop) into the
  audio emitter.
* `Stream._run` (streaming mode): a sender loop with a text coalescing buffer
  (`_flush_pending`) and a receiver loop over decoded inbound frames, joined by
  `asyncio.gather` inside a `try/finally` that calls `end_input()`.

Python floats carry no arithmetic in this code (they are copied verbatim from
the constructor into the request), so they are embedded as rationals; byte
strings are embedded as `List Nat`; Python `str.strip()` is embedded as
`pyStrip` and `"".join` as `String.join`.
-/

namespace FishAudio

/-- One audio payload (an opaque byte sequence) as produced by the backend. -/
abbrev AudioChunk := List Nat

/-- An exception raised by the blocking backend generator, abstracted to its
message; the engine never inspects it, only stores and re-raises it. -/
abbrev Exc := String

/-- Module constants of `tts.py`: `SAMPLE_RATE = 24000`. -/
def SAMPLE_RATE : Nat := 24000

/-- Module constants of `tts.py`: `NUM_CHANNELS = 1`. -/
def NUM_CHANNELS : Nat := 1

/-- Module constants of `tts.py`: `MIME_TYPE = "audio/wav"`. -/
def MIME_TYPE : String := "audio/wav"

/-- `_TTSOptions` in `tts.py`: the dataclass stored by the `TTS` constructor.
The constructor copies every caller argument into it verbatim; no validation or
clamping is performed anywhere. -/
structure TTSOptions where
  language : String
  reference_id : Option String := none
  temperature : ℚ := 7/10
  top_p : ℚ := 7/10
  chunk_length : Option Int := some 120
  latency : Option String := none
  backend : String := "s1"
  deriving DecidableEq

/-- The `TTSRequest` keyword arguments assembled identically in
`ChunkedStream._run` (lines 117-130) and `Stream._run` (lines 199-212):
`format` is the literal `"wav"`, `sample_rate` the module constant, and
`temperature` / `top_p` / `reference_id` / `chunk_length` / `latency` are copied
from the options unchanged. `chunk_length` / `latency` are `none` exactly when
the corresponding key is omitted from the kwargs. -/
structure TTSRequest where
  text : String
  reference_id : Option String
  format : String
  temperature : ℚ
  top_p : ℚ
  sample_rate : Nat
  chunk_length : Option Int
  latency : Option String
  deriving DecidableEq

/-- Request construction shared by both engines. -/
def buildTTSRequest (text : String) (opts : TTSOptions) : TTSRequest :=
  { text := text
    reference_id := opts.reference_id
    format := "wav"
    temperature := opts.temperature
    top_p := opts.top_p
    sample_rate := SAMPLE_RATE
    chunk_length := opts.chunk_length
    latency := opts.latency }

/-- The request built by `ChunkedStream._run` from its input text. -/
def chunkedRequest (inputText : String) (opts : TTSOptions) : TTSRequest :=
  buildTTSRequest inputText opts

/-- The request built by `Stream._run` (text field empty, arrives incrementally). -/
def streamRequest (opts : TTSOptions) : TTSRequest :=
  buildTTSRequest "" opts

/-- A lifecycle call observed by the audio emitter (the sink). The opaque
per-session request id is omitted; the remaining `initialize` arguments are kept. -/
inductive SinkCall
  | init (sampleRate numChannels : Nat) (mimeType : String) (stream : Bool)
  | startSegment
  | push (b : AudioChunk)
  | flush
  | endInput
  deriving DecidableEq

/-- One element of the courier queue of `ChunkedStream._run`: an audio chunk, an
exception relayed by the worker, or the terminal sentinel. -/
inductive QueueItem
  | chunk (b : AudioChunk)
  | exc (e : Exc)
  | sentinel
  deriving DecidableEq

/-- `run_tts` in `ChunkedStream._run` (lines 137-144): the worker relays every
chunk the blocking generator yields, then the exception if it raised, and in a
`finally` always the sentinel, in that order. -/
def runTTSQueue (chunks : List AudioChunk) (failure : Option Exc) : List QueueItem :=
  chunks.map .chunk ++ (match failure with | some e => [.exc e] | none => []) ++ [.sentinel]

/-- The consumer loop of `ChunkedStream._run` (lines 154-164): takes queue items
until the sentinel; an exception item is recorded (overwriting any previous one)
and skipped; a chunk item is pushed to the emitter only while no error has been
recorded. Returns the pushed chunks in order and the final recorded error. -/
def drainLoop : List QueueItem → Option Exc → List AudioChunk × Option Exc
  | [], err => ([], err)
  | .sentinel :: _, err => ([], err)
  | .chunk b :: rest, none =>
      let r := drainLoop rest none
      (b :: r.1, r.2)
  | .chunk _ :: rest, some e => drainLoop rest (some e)
  | .exc e :: rest, _ => drainLoop rest (some e)

/-- The error raised by `ChunkedStream._run`: every failure is re-raised as
`APIConnectionError() from e` (line 170). -/
inductive ChunkedErr
  | apiConnectionError (cause : Exc)
  deriving DecidableEq

/-- The observable outcome of one batched synthesis: the ordered sink calls and
the terminal result (`none` = success). -/
structure ChunkedOutcome where
  sink : List SinkCall
  result : Option ChunkedErr
  deriving DecidableEq

/-- `ChunkedStream._run` (lines 114-170) as a function of the courier queue
contents: `initialize` first, then the drained pushes; on success `flush()` and
a normal return, on a recorded error no flush and `APIConnectionError`. -/
def chunkedRun (queue : List QueueItem) : ChunkedOutcome :=
  let r := drainLoop queue none
  match r.2 with
  | none =>
      { sink := .init SAMPLE_RATE NUM_CHANNELS MIME_TYPE false :: r.1.map .push ++ [.flush]
        result := none }
  | some e =>
      { sink := .init SAMPLE_RATE NUM_CHANNELS MIME_TYPE false :: r.1.map .push
        result := some (.apiConnectionError e) }

/-! ### Streaming mode (`Stream._run`) -/

/-- Python `str.strip()`: the string with leading and trailing whitespace
removed (used on `text_raw` in `_flush_pending`). -/
def pyStrip (s : String) : String :=
  ⟨((s.data.dropWhile Char.isWhitespace).reverse.dropWhile Char.isWhitespace).reverse⟩

/-- One element of the caller's input channel in streaming mode: a text
fragment or the explicit flush sentinel (`self._FlushSentinel`). -/
inductive InputItem
  | text (s : String)
  | flushSentinel
  deriving DecidableEq

/-- One observable action of the sender loop, in temporal order: the started
callback (`self._mark_started()`), or a websocket send of a `text`, `flush`, or
`stop` event. -/
inductive SendAction
  | markStarted
  | sendText (raw : String)
  | sendFlush
  | sendStop
  deriving DecidableEq

/-- The local state of `_send_loop` (lines 222-224): pending fragments, the
`started` flag, and the last normalized text sent (initially `""`). -/
structure SendState where
  pending : List String
  started : Bool
  last_sent : String
  deriving DecidableEq

/-- `_flush_pending(force)` (lines 226-244): return silently when `pending` is
empty; otherwise join the fragments, clear `pending`, and strip. Return
silently when the stripped text is empty, or when `force` is false and it
equals `last_sent`. Otherwise record it as `last_sent`, fire the started
callback if this is the first accepted flush, and send a `text` event carrying
the raw joined text followed by a `flush` event. -/
def flushPending (force : Bool) (st : SendState) : SendState × List SendAction :=
  if st.pending = [] then (st, [])
  else if pyStrip (String.join st.pending) = "" then ({ st with pending := [] }, [])
  else if force = false ∧ pyStrip (String.join st.pending) = st.last_sent then
    ({ st with pending := [] }, [])
  else
    ({ pending := [], started := true, last_sent := pyStrip (String.join st.pending) },
      (if st.started then [] else [SendAction.markStarted]) ++
        [SendAction.sendText (String.join st.pending), SendAction.sendFlush])

/-- The `async for` body of `_send_loop` (lines 247-252): a flush sentinel
triggers `_flush_pending()` (force false); a text fragment is appended to
`pending`. -/
def sendLoopGo : List InputItem → SendState → SendState × List SendAction
  | [], st => (st, [])
  | .text s :: rest, st => sendLoopGo rest { st with pending := st.pending ++ [s] }
  | .flushSentinel :: rest, st =>
      let fl := flushPending false st
      let r := sendLoopGo rest fl.1
      (r.1, fl.2 ++ r.2)

/-- `_send_loop` (lines 221-262) over the whole input channel: process every
item, then `_flush_pending(force=True)`, then send a `stop` event only if the
session ever started. -/
def sendLoop (input : List InputItem) : List SendAction :=
  let r := sendLoopGo input ⟨[], false, ""⟩
  let fl := flushPending true r.1
  r.2 ++ fl.2 ++ (if fl.1.started then [SendAction.sendStop] else [])

/-- An outbound protocol event actually written to the websocket. -/
inductive OutEvent
  | start
  | text (s : String)
  | flush
  | stop
  deriving DecidableEq

/-- The websocket sends contained in a sender action trace (the started
callback is not a protocol event). -/
def sendEventsOf : List SendAction → List OutEvent
  | [] => []
  | .markStarted :: rest => sendEventsOf rest
  | .sendText s :: rest => .text s :: sendEventsOf rest
  | .sendFlush :: rest => .flush :: sendEventsOf rest
  | .sendStop :: rest => .stop :: sendEventsOf rest

/-- One inbound observation of `_recv_loop` per iteration: a decoded frame with
its `event` discriminator (`audio` carrying the payload, `finish` carrying the
reason, or any other discriminator), undecodable bytes (`ormsgpack.unpackb`
raises), or `receive_bytes` raising `WebSocketDisconnect`. -/
inductive InFrame
  | audio (payload : AudioChunk)
  | finish (reason : String)
  | other (event : String)
  | malformed
  | disconnect
  deriving DecidableEq

/-- How `_recv_loop` terminates abnormally: `connErr` is an
`APIConnectionError` (a `finish` with reason `"error"`, line 276, or a
`WebSocketDisconnect` re-raised at line 279); `decodeErr` is the decoder's own
exception from undecodable bytes, which no except clause in `_run` catches. -/
inductive RecvErr
  | connErr
  | decodeErr
  deriving DecidableEq

/-- `_recv_loop` (lines 264-279): push non-empty `audio` payloads in arrival
order; `finish` with reason `"error"` raises a connection error, any other
`finish` exits normally; frames with any other discriminator fall through both
branches and are silently skipped; undecodable bytes raise the decoder error;
a websocket disconnect raises a connection error. Returns the pushed chunks and
how the loop ended (`none` = normal exit). -/
def recvLoop : List InFrame → List AudioChunk × Option RecvErr
  | [] => ([], none)
  | .audio p :: rest =>
      if p = [] then recvLoop rest
      else
        let r := recvLoop rest
        (p :: r.1, r.2)
  | .finish reason :: _ =>
      if reason = "error" then ([], some .connErr) else ([], none)
  | .other _ :: rest => recvLoop rest
  | .malformed :: _ => ([], some .decodeErr)
  | .disconnect :: _ => ([], some .connErr)

/-- The terminal error of one streaming session: `apiConnectionError` covers
connect/handshake failures and everything `_run` normalizes (lines 303-310) as
well as the receiver's own `APIConnectionError`; `decodeError` is an
undecodable-frame exception propagating unwrapped; `cancelled` is an external
`asyncio.CancelledError` propagating through `_run`. -/
inductive StreamErr
  | apiConnectionError
  | decodeError
  | cancelled
  deriving DecidableEq

/-- The observable outcome of one streaming session: the ordered sink calls,
the ordered outbound protocol events, and the terminal result (`none` =
success). -/
structure StreamOutcome where
  sink : List SinkCall
  sent : List OutEvent
  result : Option StreamErr
  deriving DecidableEq

/-- `Stream._run` (lines 188-312). Parameters describe the environment of one
session: whether the connection attempt (client/handshake/`start` send, lines
282-290) succeeds; whether and where the session is cancelled from outside
(`some (j, k)`: the sender had sent `j` protocol events and the receiver had
processed `k` frames when cancellation hit); the caller's input channel; the
inbound frames; and `sendProgress`, the number of outbound events the sender
managed before being cancelled when the receiver fails first.

The emitter calls at lines 190-197 (`initialize` with `stream=True`, then
`start_segment`) precede the `try` block, so they occur even when the
connection fails; the `finally` at line 311 calls `end_input()` on every path. -/
def streamRun (connectOk : Bool) (cancel : Option (Nat × Nat))
    (input : List InputItem) (frames : List InFrame) (sendProgress : Nat) :
    StreamOutcome :=
  let pre : List SinkCall :=
    [.init SAMPLE_RATE NUM_CHANNELS MIME_TYPE true, .startSegment]
  if connectOk = false then
    { sink := pre ++ [.endInput], sent := [], result := some .apiConnectionError }
  else
    match cancel with
    | some (j, k) =>
        { sink := pre ++ ((recvLoop (frames.take k)).1.map .push) ++ [.endInput]
          sent := .start :: (sendEventsOf (sendLoop input)).take j
          result := some .cancelled }
    | none =>
        let r := recvLoop frames
        { sink := pre ++ (r.1.map .push) ++ [.endInput]
          sent := .start ::
            (match r.2 with
              | none => sendEventsOf (sendLoop input)
              | some _ => (sendEventsOf (sendLoop input)).take sendProgress)
          result :=
            match r.2 with
            | none => none
            | some .connErr => some .apiConnectionError
            | some .decodeErr => some .decodeError }

/-! ### Lemmas about the batched drain loop -/

/-- Draining with no recorded error forwards a leading run of chunk items. -/
lemma drainLoop_chunks_none (chunks : List AudioChunk) (rest : List QueueItem) :
    drainLoop (chunks.map .chunk ++ rest) none =
      (chunks ++ (drainLoop rest none).1, (drainLoop rest none).2) := by
  induction chunks with
  | nil => simp [drainLoop]
  | cons c cs ih => simp [drainLoop, ih]

/-- Once an error is recorded, every further chunk item up to the sentinel is
discarded. -/
lemma drainLoop_some_discards (post : List AudioChunk) (e : Exc) :
    drainLoop (post.map .chunk ++ [.sentinel]) (some e) = ([], some e) := by
  induction post with
  | nil => rfl
  | cons c cs ih => simpa [drainLoop] using ih

/-- C7: batched happy path. For every finite chunk sequence the backend yields
with no error, the worker enqueues the chunks followed by the sentinel, and the
sink observes exactly `initialize`, one `push` per chunk in emission order, then
`flush`, in that order, and the operation succeeds. -/
theorem chunked_happy_path (chunks : List AudioChunk) :
    chunkedRun (runTTSQueue chunks none) =
      { sink := .init SAMPLE_RATE NUM_CHANNELS MIME_TYPE false ::
          chunks.map .push ++ [.flush]
        result := none } := by
  simp [chunkedRun, runTTSQueue, drainLoop_chunks_none, drainLoop]

/-- C1: batched mid-stream failure. The worker enqueues the chunks emitted
before the failure, then the exception, then the sentinel; the consumer drains
the whole queue, discarding any chunk item after the failure item (arbitrary
`post`), pushes exactly the pre-failure chunks in emission order, never calls
`flush`, and the operation fails with `APIConnectionError`. -/
theorem chunked_midstream_failure (pre post : List AudioChunk) (e : Exc) :
    runTTSQueue pre (some e) = pre.map .chunk ++ .exc e :: [.sentinel] ∧
    chunkedRun (pre.map .chunk ++ .exc e :: (post.map .chunk ++ [.sentinel])) =
      { sink := .init SAMPLE_RATE NUM_CHANNELS MIME_TYPE false :: pre.map .push
        result := some (.apiConnectionError e) } ∧
    SinkCall.flush ∉
      (chunkedRun (pre.map .chunk ++ .exc e :: (post.map .chunk ++ [.sentinel]))).sink := by
  refine ⟨by simp [runTTSQueue], ?_, ?_⟩
  · simp [chunkedRun, drainLoop_chunks_none, drainLoop, drainLoop_some_discards]
  · simp [chunkedRun, drainLoop_chunks_none, drainLoop, drainLoop_some_discards]

/-- C9 (counterexample): the engines perform no validation of `temperature` /
`top_p`; a caller constructing the TTS with `temperature = 2` yields a request
whose temperature is `2`, outside `[0, 1]`. -/
theorem request_range_counterexample :
    (chunkedRequest "hello" { language := "en", temperature := 2 }).temperature = 2 ∧
    ¬ (chunkedRequest "hello" { language := "en", temperature := 2 }).temperature ≤ 1 := by
  exact ⟨rfl, by decide⟩

/-- C9 (amended): both engines copy the caller's `temperature` and `top_p` into
the request verbatim, so the request's values lie in `[0, 1]` exactly when the
values supplied at construction do — in particular for the defaults
(`0.7`, `0.7`). No clamping or validation enforces the range for arbitrary
caller values. -/
theorem request_range_amended (text : String) (opts : TTSOptions)
    (ht0 : 0 ≤ opts.temperature) (ht1 : opts.temperature ≤ 1)
    (hp0 : 0 ≤ opts.top_p) (hp1 : opts.top_p ≤ 1) :
    ((chunkedRequest text opts).temperature = opts.temperature ∧
      (chunkedRequest text opts).top_p = opts.top_p ∧
      (streamRequest opts).temperature = opts.temperature ∧
      (streamRequest opts).top_p = opts.top_p) ∧
    (0 ≤ (chunkedRequest text opts).temperature ∧
      (chunkedRequest text opts).temperature ≤ 1 ∧
      0 ≤ (chunkedRequest text opts).top_p ∧ (chunkedRequest text opts).top_p ≤ 1) ∧
    (0 ≤ (streamRequest opts).temperature ∧ (streamRequest opts).temperature ≤ 1 ∧
      0 ≤ (streamRequest opts).top_p ∧ (streamRequest opts).top_p ≤ 1) :=
  ⟨⟨rfl, rfl, rfl, rfl⟩, ⟨ht0, ht1, hp0, hp1⟩, ⟨ht0, ht1, hp0, hp1⟩⟩

/-- Witness for `request_range_amended` at in-range caller values
(`temperature = 0`, `top_p = 1`). -/
theorem request_range_amended_witness :
    0 ≤ (chunkedRequest "hello" { language := "en", temperature := 0, top_p := 1 }).temperature ∧
    (chunkedRequest "hello" { language := "en", temperature := 0, top_p := 1 }).temperature ≤ 1 ∧
    0 ≤ (chunkedRequest "hello" { language := "en", temperature := 0, top_p := 1 }).top_p ∧
    (chunkedRequest "hello" { language := "en", temperature := 0, top_p := 1 }).top_p ≤ 1 :=
  (request_range_amended "hello" { language := "en", temperature := 0, top_p := 1 }
    (by decide) (by decide) (by decide) (by decide)).2.1

/-! ### Lemmas about the streaming sender loop -/

/-- Whether a sender action is the started callback. -/
def isMark : SendAction → Bool
  | .markStarted => true
  | _ => false

/-- Whether a sender action is a `text` event send. -/
def isText : SendAction → Bool
  | .sendText _ => true
  | _ => false

/-- A flush whose normalized pending text equals `last_sent` (with `force`
false) emits nothing; this also covers the empty-buffer and whitespace-only
cases. -/
lemma flushPending_dedup (st : SendState)
    (h : pyStrip (String.join st.pending) = st.last_sent) :
    (flushPending false st).2 = [] := by
  unfold flushPending
  split_ifs with h1 h2 h3 h4
  · rfl
  · rfl
  · rfl
  · exact absurd ⟨rfl, h⟩ h3
  · exact absurd ⟨rfl, h⟩ h3

/-- A flush of an empty buffer emits nothing and leaves the state unchanged. -/
lemma flushPending_empty (force : Bool) (st : SendState) (h : st.pending = []) :
    flushPending force st = (st, []) := by
  unfold flushPending
  rw [if_pos h]

/-- An accepted flush: non-empty buffer, non-empty normalized text, and either
forced or different from `last_sent`. The buffer is cleared, the normalized
text recorded, `started` set, and the started callback (only on the first
acceptance) plus the `text`/`flush` sends are emitted. -/
lemma flushPending_accept (force : Bool) (st : SendState)
    (hp : st.pending ≠ [])
    (hn : pyStrip (String.join st.pending) ≠ "")
    (hd : force = true ∨ pyStrip (String.join st.pending) ≠ st.last_sent) :
    flushPending force st =
      ({ pending := [], started := true, last_sent := pyStrip (String.join st.pending) },
        (if st.started then [] else [SendAction.markStarted]) ++
          [SendAction.sendText (String.join st.pending), SendAction.sendFlush]) := by
  unfold flushPending
  rw [if_neg hp, if_neg hn, if_neg]
  rintro ⟨hf, hl⟩
  rcases hd with hd | hd
  · rw [hd] at hf; exact Bool.noConfusion hf
  · exact hd hl

/-- Every flush either emits nothing (leaving `started` and `last_sent`
unchanged) or emits the optional started callback followed by a `text`/`flush`
pair (with `started` true afterwards). -/
lemma flushPending_shape (force : Bool) (st : SendState) :
    ((flushPending force st).2 = [] ∧ (flushPending force st).1.started = st.started ∧
      (flushPending force st).1.last_sent = st.last_sent) ∨
    (∃ r, (flushPending force st).2 =
        (if st.started then [] else [SendAction.markStarted]) ++
          [SendAction.sendText r, SendAction.sendFlush] ∧
      (flushPending force st).1.started = true) := by
  by_cases h1 : st.pending = []
  · rw [flushPending_empty force st h1]
    exact Or.inl ⟨rfl, rfl, rfl⟩
  · by_cases h2 : pyStrip (String.join st.pending) = ""
    · refine Or.inl ?_
      unfold flushPending
      rw [if_neg h1, if_pos h2]
      exact ⟨rfl, rfl, rfl⟩
    · by_cases h3 : force = false ∧ pyStrip (String.join st.pending) = st.last_sent
      · refine Or.inl ?_
        unfold flushPending
        rw [if_neg h1, if_neg h2, if_pos h3]
        exact ⟨rfl, rfl, rfl⟩
      · refine Or.inr ⟨String.join st.pending, ?_, ?_⟩
        · unfold flushPending
          rw [if_neg h1, if_neg h2, if_neg h3]
        · unfold flushPending
          rw [if_neg h1, if_neg h2, if_neg h3]

/-- Invariant of the sender loop body: `started` after the loop is `started`
before joined with "some `text` event was emitted"; once started, the callback
is never emitted again; and before starting, the emitted trace is either empty
or begins with the callback immediately followed by the first `text`/`flush`
pair, with no further callback. -/
lemma sendLoopGo_spec (input : List InputItem) (st : SendState) :
    ((sendLoopGo input st).1.started
        = (st.started || (sendLoopGo input st).2.any isText)) ∧
    (st.started = true → ∀ a ∈ (sendLoopGo input st).2, isMark a = false) ∧
    (st.started = false →
      (sendLoopGo input st).2 = [] ∨
      ∃ r post, (sendLoopGo input st).2 =
          .markStarted :: .sendText r :: .sendFlush :: post ∧
        ∀ a ∈ post, isMark a = false) := by
  induction input generalizing st with
  | nil => simp [sendLoopGo]
  | cons item rest ih =>
    cases item with
    | text s => simpa [sendLoopGo] using ih _
    | flushSentinel =>
      have hgo : sendLoopGo (.flushSentinel :: rest) st =
          ((sendLoopGo rest (flushPending false st).1).1,
            (flushPending false st).2 ++ (sendLoopGo rest (flushPending false st).1).2) := rfl
      obtain ⟨ih1, ih2, ih3⟩ := ih (flushPending false st).1
      rcases flushPending_shape false st with ⟨h2, hs, -⟩ | ⟨r, h2, hs⟩
      · rw [hgo, h2]
        rw [hs] at ih1 ih2 ih3
        simpa using ⟨ih1, ih2, ih3⟩
      · rw [hgo]
        rw [hs] at ih1 ih2
        have hmarks := ih2 rfl
        have htext : ((flushPending false st).2 ++
            (sendLoopGo rest (flushPending false st).1).2).any isText = true := by
          rw [h2]
          cases hst : st.started <;> simp [isText]
        have hg : (sendLoopGo rest (flushPending false st).1).1.started = true := by
          rw [ih1]; exact Bool.true_or _
        refine ⟨?_, ?_, ?_⟩
        · rw [hg, htext, Bool.or_true]
        · intro hst
          have h2' : (flushPending false st).2 = [.sendText r, .sendFlush] := by
            rw [h2, hst]; simp
          intro a ha
          rw [h2'] at ha
          rcases List.mem_append.1 ha with ha | ha
          · rcases List.mem_cons.1 ha with rfl | ha
            · rfl
            · rcases List.mem_cons.1 ha with rfl | ha
              · rfl
              · exact absurd ha (List.not_mem_nil a)
          · exact hmarks a ha
        · intro hst
          have h2' : (flushPending false st).2 = [.markStarted, .sendText r, .sendFlush] := by
            rw [h2, hst]; simp
          refine Or.inr ⟨r, (sendLoopGo rest (flushPending false st).1).2, ?_, hmarks⟩
          rw [h2']
          rfl


/-- `sendLoop` unfolded: the loop body over the whole input, the final forced
flush, and the conditional `stop`. -/
lemma sendLoop_eq (input : List InputItem) :
    sendLoop input =
      (sendLoopGo input ⟨[], false, ""⟩).2 ++
        (flushPending true (sendLoopGo input ⟨[], false, ""⟩).1).2 ++
        (if (flushPending true (sendLoopGo input ⟨[], false, ""⟩).1).1.started then
          [SendAction.sendStop] else []) := rfl

/-- A run of text fragments with no flush sentinel only accumulates into the
buffer and sends nothing. -/
lemma sendLoopGo_texts (frags : List String) (st : SendState) :
    sendLoopGo (frags.map .text) st = ({ st with pending := st.pending ++ frags }, []) := by
  induction frags generalizing st with
  | nil => simp [sendLoopGo]
  | cons f fs ih => simp [sendLoopGo, ih]

/-- C5: started-once invariant. For every streaming input, the sender trace is
either completely empty (a session with no accepted non-empty flush: the
started callback never fires and nothing is sent) or begins with the started
callback, immediately followed by the first accepted `text`/`flush` pair, and
the callback never occurs again later in the trace. -/
theorem stream_started_once (input : List InputItem) :
    sendLoop input = [] ∨
    ∃ r post, sendLoop input =
        SendAction.markStarted :: .sendText r :: .sendFlush :: post ∧
      ∀ a ∈ post, isMark a = false := by
  rw [sendLoop_eq]
  obtain ⟨h1, -, h3⟩ := sendLoopGo_spec input ⟨[], false, ""⟩
  rcases h3 rfl with hglist | ⟨r, post, hglist, hpost⟩
  · have hstart : (sendLoopGo input ⟨[], false, ""⟩).1.started = false := by
      rw [h1, hglist]; rfl
    rcases flushPending_shape true (sendLoopGo input ⟨[], false, ""⟩).1 with
      ⟨f2, fs, -⟩ | ⟨r, f2, fs⟩
    · left
      rw [hglist, f2, fs, hstart]
      simp
    · right
      refine ⟨r, [SendAction.sendStop], ?_, ?_⟩
      · rw [hglist, f2, hstart, fs]
        simp
      · intro a ha
        rcases List.mem_cons.1 ha with rfl | ha
        · rfl
        · exact absurd ha (List.not_mem_nil a)
  · have hstart : (sendLoopGo input ⟨[], false, ""⟩).1.started = true := by
      rw [h1, hglist]; simp [isText]
    rcases flushPending_shape true (sendLoopGo input ⟨[], false, ""⟩).1 with
      ⟨f2, fs, -⟩ | ⟨r', f2, fs⟩
    · right
      refine ⟨r, post ++ [SendAction.sendStop], ?_, ?_⟩
      · rw [hglist, f2, fs, hstart]
        simp
      · intro a ha
        rcases List.mem_append.1 ha with ha | ha
        · exact hpost a ha
        · rcases List.mem_cons.1 ha with rfl | ha
          · rfl
          · exact absurd ha (List.not_mem_nil a)
    · right
      refine ⟨r, post ++ [SendAction.sendText r', SendAction.sendFlush, SendAction.sendStop],
        ?_, ?_⟩
      · rw [hglist, f2, hstart, fs]
        simp
      · intro a ha
        rcases List.mem_append.1 ha with ha | ha
        · exact hpost a ha
        · rcases List.mem_cons.1 ha with rfl | ha
          · rfl
          · rcases List.mem_cons.1 ha with rfl | ha
            · rfl
            · rcases List.mem_cons.1 ha with rfl | ha
              · rfl
              · exact absurd ha (List.not_mem_nil a)

/-- C2: idempotent-flush deduplication. A non-forced flush whose normalized
pending text equals the last sent normalized value emits no events at all; in
the scenario append "Hi", flush, append "Hi", flush, close, exactly one
`text`/`flush` pair is sent (the started callback fires once and the `stop` on
close follows). -/
theorem stream_flush_dedup :
    (∀ st : SendState, pyStrip (String.join st.pending) = st.last_sent →
      (flushPending false st).2 = []) ∧
    sendLoop [.text "Hi", .flushSentinel, .text "Hi", .flushSentinel] =
      [.markStarted, .sendText "Hi", .sendFlush, .sendStop] :=
  ⟨flushPending_dedup, by decide⟩

/-- Witness for `stream_flush_dedup`: a concrete deduplicated flush state. -/
theorem stream_flush_dedup_witness :
    (flushPending false ⟨["Hi"], true, "Hi"⟩).2 = [] :=
  stream_flush_dedup.1 ⟨["Hi"], true, "Hi"⟩ (by decide)

/-- C3 (counterexample): a caller that appends the whitespace-only fragment
`" "` and closes the channel without flushing has its pending text silently
dropped — the forced close flush sends nothing at all (no `text` event), because
the force flag does not bypass the empty-after-strip check. -/
theorem stream_trailing_whitespace_counterexample :
    sendLoop [.text " "] = [] := by decide

/-- C3 (amended): closing the channel triggers a flush with `force = true`
which bypasses only the deduplication check: whenever the pending buffer is
non-empty and its stripped concatenation is non-empty, the pending raw text is
sent as a `text` event followed by a `flush` event regardless of `last_sent`;
in particular a session of appended fragments with no explicit flush sends
them on close. Whitespace-only (or empty) trailing text is still dropped. -/
theorem stream_trailing_force_flush :
    (∀ st : SendState, st.pending ≠ [] → pyStrip (String.join st.pending) ≠ "" →
      flushPending true st =
        ({ pending := [], started := true, last_sent := pyStrip (String.join st.pending) },
          (if st.started then [] else [SendAction.markStarted]) ++
            [SendAction.sendText (String.join st.pending), SendAction.sendFlush])) ∧
    (∀ frags : List String, pyStrip (String.join frags) ≠ "" →
      sendLoop (frags.map .text) =
        [.markStarted, .sendText (String.join frags), .sendFlush, .sendStop]) := by
  have accept := fun st hp hn =>
    flushPending_accept true st hp hn (Or.inl rfl)
  refine ⟨accept, fun frags hn => ?_⟩
  have hfrags : frags ≠ [] := by
    rintro rfl
    exact hn rfl
  rw [sendLoop_eq, sendLoopGo_texts]
  rw [accept ⟨[] ++ frags, false, ""⟩ (by simpa using hfrags) (by simpa using hn)]
  simp

/-- Witness for `stream_trailing_force_flush`: one trailing fragment "Hi". -/
theorem stream_trailing_force_flush_witness :
    sendLoop (["Hi"].map InputItem.text) =
      [.markStarted, .sendText (String.join ["Hi"]), .sendFlush, .sendStop] :=
  stream_trailing_force_flush.2 ["Hi"] (by decide)

/-- C4: cleanup on every path. For every connection outcome, cancellation
point, input, inbound frame sequence, and sender progress, the sink trace of
`Stream._run` ends with `end_input()` and contains it nowhere else: the
`finally` block makes it the engine's final act exactly once. -/
theorem stream_end_input_every_path (c : Bool) (cancel : Option (Nat × Nat))
    (input : List InputItem) (frames : List InFrame) (sp : Nat) :
    ∃ pre, (streamRun c cancel input frames sp).sink = pre ++ [SinkCall.endInput] ∧
      SinkCall.endInput ∉ pre := by
  cases c with
  | false =>
      exact ⟨[.init SAMPLE_RATE NUM_CHANNELS MIME_TYPE true, .startSegment],
        rfl, by simp⟩
  | true =>
      cases cancel with
      | none =>
          refine ⟨[.init SAMPLE_RATE NUM_CHANNELS MIME_TYPE true, .startSegment] ++
            ((recvLoop frames).1.map .push), ?_, ?_⟩
          · simp [streamRun]
          · simp
      | some jk =>
          obtain ⟨j, k⟩ := jk
          refine ⟨[.init SAMPLE_RATE NUM_CHANNELS MIME_TYPE true, .startSegment] ++
            ((recvLoop (frames.take k)).1.map .push), ?_, ?_⟩
          · simp [streamRun]
          · simp

/-- C10: the emitter is initialized before the connection is attempted. On the
connection-failure path the sink observes exactly `initialize` (streaming),
`start_segment`, `end_input`; and on every path the trace is `initialize`,
`start_segment`, then only pushes until the final `end_input` — so `initialize`
precedes every push. -/
theorem stream_init_before_connect (input : List InputItem) (frames : List InFrame)
    (sp : Nat) :
    (∀ cancel, (streamRun false cancel input frames sp).sink =
      [.init SAMPLE_RATE NUM_CHANNELS MIME_TYPE true, .startSegment, .endInput]) ∧
    (∀ (c : Bool) (cancel : Option (Nat × Nat)), ∃ pushes : List AudioChunk,
      (streamRun c cancel input frames sp).sink =
        .init SAMPLE_RATE NUM_CHANNELS MIME_TYPE true :: .startSegment ::
          (pushes.map .push ++ [.endInput])) := by
  constructor
  · intro cancel
    simp [streamRun]
  · intro c cancel
    cases c with
    | false => exact ⟨[], by simp [streamRun]⟩
    | true =>
        cases cancel with
        | none => exact ⟨(recvLoop frames).1, by simp [streamRun]⟩
        | some jk =>
            obtain ⟨j, k⟩ := jk
            exact ⟨(recvLoop (frames.take k)).1, by simp [streamRun]⟩

/-- C6 (counterexample): a receiver observing an inbound frame with the unknown
discriminator "checkpoint" simply skips it — the session then completes
successfully instead of failing; and undecodable bytes fail the session with
the raw decoder error, which is not the `ConnectionError`-class error. -/
theorem stream_protocol_error_counterexample :
    (streamRun true none [] [.other "checkpoint", .finish "stop"] 0).result = none ∧
    (streamRun true none [] [.malformed] 0).result = some StreamErr.decodeError ∧
    StreamErr.decodeError ≠ StreamErr.apiConnectionError := by decide

/-- C6 (amended): frames with an unexpected discriminator are silently ignored
by the receiver loop; undecodable bytes abort the session with the decoder's
own error propagating unwrapped (no except clause in `_run` catches it);
only websocket disconnects and a `finish` with reason "error" fail the session
with the `ConnectionError`-class error. -/
theorem stream_protocol_error_amended :
    (∀ (e : String) (rest : List InFrame), recvLoop (.other e :: rest) = recvLoop rest) ∧
    (∀ (input : List InputItem) (rest : List InFrame) (sp : Nat),
      (streamRun true none input (.malformed :: rest) sp).result =
        some StreamErr.decodeError) ∧
    (∀ (input : List InputItem) (rest : List InFrame) (sp : Nat),
      (streamRun true none input (.disconnect :: rest) sp).result =
        some StreamErr.apiConnectionError) ∧
    (∀ (input : List InputItem) (rest : List InFrame) (sp : Nat),
      (streamRun true none input (.finish "error" :: rest) sp).result =
        some StreamErr.apiConnectionError) := by
  refine ⟨fun e rest => rfl, fun i r sp => ?_, fun i r sp => ?_, fun i r sp => ?_⟩ <;>
    simp [streamRun, recvLoop]

/-- C8: empty trailing session. A caller that appends nothing and closes the
channel sends no sender actions at all (so no `text`, `flush`, or `stop` event
and no started callback); the backend sees only the `start` event, and
`end_input()` is still called on the sink. -/
theorem stream_empty_trailing (frames : List InFrame) (sp : Nat) :
    sendLoop [] = [] ∧
    (streamRun true none [] frames sp).sent = [OutEvent.start] ∧
    ∃ pre, (streamRun true none [] frames sp).sink = pre ++ [SinkCall.endInput] := by
  have hsl : sendLoop [] = [] := by decide
  refine ⟨hsl, ?_, ?_⟩
  · cases h : (recvLoop frames).2 with
    | none => simp [streamRun, h, hsl, sendEventsOf]
    | some e => simp [streamRun, h, hsl, sendEventsOf]
  · exact ⟨[.init SAMPLE_RATE NUM_CHANNELS MIME_TYPE true, .startSegment] ++
      ((recvLoop frames).1.map .push), by simp [streamRun]⟩

end FishAudio
